import Mathlib

/-!
Shallow embedding of the user CRUD service in `src/main.py`: an in-memory
user store (`users_db`), the endpoints `create_user`, `delete_user`,
`upload_users_csv` (bulk CSV import with per-row skip accounting) and
`get_average_age_by_group` (average age grouped by the uppercase first
letter of the name), together with proofs of the specified properties.

Modelling conventions:
  * `users_db` is a CPython dict, which iterates its values in insertion
    order; it is embedded as the insertion-ordered list of its records,
    together with a fresh-id counter standing in for `uuid.uuid4()`
    (the ids are opaque; only freshness matters).
  * Ages flow through `pd.to_numeric(..., errors='coerce')` in the
    aggregator, and the tests inject records whose age is a non-numeric
    string directly into the store, so a stored age is either a value
    that `to_numeric` reads as a number, or one it coerces to NaN.
  * Error responses (`HTTPException`) are `Except` errors; a raised
    exception leaves the store untouched, which the embedding reflects by
    returning the error without a new state.
  * Floating-point arithmetic of pandas is embedded over `ℚ`;
    `.round(2)` is numpy round-half-to-even at two decimal digits.
-/

namespace UserApp

/-- Stored age value. `num q` is a value `pd.to_numeric` reads as the
number `q`; `nonNumeric s` is a value it coerces to NaN (such as the
string "invalid_age" the tests inject). The HTTP create path always
stores `num` of an integer. -/
inductive AgeVal where
  | num (q : ℚ)
  | nonNumeric (s : String)
deriving DecidableEq, Repr

/-- Embeds `pd.to_numeric(..., errors='coerce')` applied to one value:
`none` is NaN. -/
def AgeVal.toNumeric : AgeVal → Option ℚ
  | num q => some q
  | nonNumeric _ => none

/-- The `User` model of main.py: generated `id`, `name`, `age`. -/
structure User where
  id : ℕ
  name : String
  age : AgeVal
deriving DecidableEq, Repr

/-- System state: the values of `users_db` in insertion order plus the
fresh-id supply. -/
structure SysState where
  db : List User
  nextId : ℕ
deriving DecidableEq, Repr

/-- The store at process start: `users_db = {}`. -/
def initState : SysState := { db := [], nextId := 0 }

/-- Error outcomes surfaced as `HTTPException`s by main.py. -/
inductive Err where
  | DuplicateName
  | NotFound
  | SchemaMismatch
deriving DecidableEq, Repr

/-- Embeds `any(u['name'] == name for u in users_db.values())`:
case-sensitive exact comparison. -/
def containsName (db : List User) (nm : String) : Bool :=
  db.any fun u => u.name = nm

/-- POST /users (`create_user`): rejects a duplicate name with status 400,
otherwise stores the record under a fresh id and returns it. main.py has
no validation beyond pydantic's `name: str, age: int`, so any string name
(the empty string included) reaches the duplicate check. -/
def create_user (s : SysState) (nm : String) (ag : ℤ) : Except Err (SysState × User) :=
  let newUser : User := { id := s.nextId, name := nm, age := .num (ag : ℚ) }
  if containsName s.db nm then
    .error .DuplicateName
  else
    .ok ({ db := s.db ++ [newUser], nextId := s.nextId + 1 }, newUser)

/-- DELETE /users/uid (`delete_user`): 404 if the id is absent, otherwise
removes the entry with that key. -/
def delete_user (s : SysState) (uid : ℕ) : Except Err SysState :=
  if s.db.any fun u => u.id = uid then
    .ok { s with db := s.db.filter fun u => u.id ≠ uid }
  else
    .error .NotFound

/-- One parsed CSV data row, as the import loop body sees it.
`name = some s` means the Name cell carries the text `s` (used both for
record construction and for the skip report); `name = none` means the
cell is NaN (empty or missing value), so pydantic rejects it and the skip
report renders it with `str`. `age = some n` means `int(row['Age'])`
succeeds with `n`; `age = none` means it raises (empty or non-numeric
cell). -/
structure Row where
  name : Option String
  age : Option ℤ
deriving DecidableEq, Repr

/-- A decoded CSV table: `df.columns` and the data rows in file order. -/
structure CSV where
  header : List String
  rows : List Row
deriving DecidableEq, Repr

/-- The loop state of `upload_users_csv`: the store plus `added_count`,
`skipped_count`, `skipped_names`. -/
structure ImportState where
  sys : SysState
  added : ℕ
  skipped : ℕ
  skippedNames : List String
deriving DecidableEq, Repr

/-- The JSON report returned by `upload_users_csv`. -/
structure ImportReport where
  added : ℕ
  skipped : ℕ
  skippedNames : List String
deriving DecidableEq, Repr

/-- Embeds `UserCreate(name=row['Name'], age=int(row['Age']))`: succeeds
only when the Age cell parses as an integer and the Name cell carries
text. -/
def parseRow (r : Row) : Option (String × ℤ) :=
  match r.name, r.age with
  | some nm, some ag => some (nm, ag)
  | _, _ => none

/-- The body of the `for _, row in df.iterrows()` loop: on parse failure
skip with `str(row.get('Name', 'N/A'))`; on a duplicate name skip with the
parsed name; otherwise store a fresh record and count it added.
After the header check, every row Series has the `'Name'` key, so the
`'N/A'` fallback of `row.get` is unreachable: a NaN Name cell is returned
as NaN and `str` renders it `"nan"`, which is what `r.name.getD "nan"`
yields for `name = none`. -/
def processRow (st : ImportState) (r : Row) : ImportState :=
  match parseRow r with
  | some (nm, ag) =>
    if containsName st.sys.db nm then
      { st with skipped := st.skipped + 1, skippedNames := st.skippedNames ++ [nm] }
    else
      { st with
          sys := { db := st.sys.db ++ [{ id := st.sys.nextId, name := nm, age := .num (ag : ℚ) }],
                   nextId := st.sys.nextId + 1 },
          added := st.added + 1 }
  | none =>
      { st with skipped := st.skipped + 1,
                skippedNames := st.skippedNames ++ [r.name.getD "nan"] }

/-- POST /users/upload_csv (`upload_users_csv`), from the point where the
file has been decoded into a table: the header must contain the columns
`Name` and `Age` (case-sensitive) or the whole request fails with
status 400 before any row is processed; otherwise the rows are folded
through `processRow` in file order. -/
def upload_users_csv (s : SysState) (csv : CSV) : Except Err (SysState × ImportReport) :=
  if ¬ ("Name" ∈ csv.header ∧ "Age" ∈ csv.header) then
    .error .SchemaMismatch
  else
    let fin := csv.rows.foldl processRow { sys := s, added := 0, skipped := 0, skippedNames := [] }
    .ok (fin.sys, { added := fin.added, skipped := fin.skipped, skippedNames := fin.skippedNames })

/-- Embeds `df['name'].str[0].str.upper()` on one name: the first
character uppercased, or NaN (`none`) for the empty string. (`Char.toUpper`
matches Python `str.upper` on ASCII, the alphabet exercised here.) -/
def firstCharUpper (s : String) : Option Char :=
  s.data.head?.map Char.toUpper

/-- Group key of a record, `none` when the name is empty (a NaN key,
which `groupby` drops). -/
def groupKey (u : User) : Option Char := firstCharUpper u.name

/-- Embeds `df.dropna(subset=['age'])`: the records whose age survives
`to_numeric` coercion. -/
def includedRows (db : List User) : List User :=
  db.filter fun u => u.age.toNumeric.isSome

/-- The group keys present after dropping NaN ages (each key once, in
first-occurrence order; the result is read as a mapping, so the key order
carries no meaning). -/
def groupKeys (db : List User) : List Char :=
  ((includedRows db).filterMap groupKey).dedup

/-- The ages contributing to group `k`: numeric ages of records whose
group key is `k`, NaN ages dropped. -/
def groupAges (db : List User) (k : Char) : List ℚ :=
  (includedRows db).filterMap fun u =>
    if groupKey u = some k then u.age.toNumeric else none

/-- Arithmetic mean of a list of rationals. -/
def listMean (l : List ℚ) : ℚ := l.sum / (l.length : ℚ)

/-- Numpy rounding to the nearest integer, ties to even (the mode used by
`Series.round`). -/
def roundHalfEven (q : ℚ) : ℤ :=
  if q - (⌊q⌋ : ℚ) = 1 / 2 then (if ⌊q⌋ % 2 = 0 then ⌊q⌋ else ⌊q⌋ + 1) else round q

/-- Embeds `.round(2)`. -/
def round2 (q : ℚ) : ℚ := (roundHalfEven (q * 100) : ℚ) / 100

/-- Embeds `df.dropna(subset=['age']).groupby('group')['age'].mean().round(2).to_dict()`
as an association list keyed by group letter. -/
def averageTable (db : List User) : List (Char × ℚ) :=
  (groupKeys db).map fun k => (k, round2 (listMean (groupAges db k)))

/-- Result of GET /users/average_age: either the explicit no-users message
or the grouped-averages mapping. -/
inductive AggResult where
  | noData
  | table (t : List (Char × ℚ))
deriving DecidableEq, Repr

/-- GET /users/average_age (`get_average_age_by_group`). -/
def get_average_age_by_group (db : List User) : AggResult :=
  if db = [] then .noData else .table (averageTable db)

/-- One external operation against the store. -/
inductive Op where
  | create (nm : String) (ag : ℤ)
  | delete (uid : ℕ)
  | importCSV (csv : CSV)

/-- Applies one operation; an operation that raises leaves the store
unchanged (main.py raises before mutating in every error path). -/
def applyOp (s : SysState) : Op → SysState
  | .create nm ag =>
    match create_user s nm ag with
    | .ok (s', _) => s'
    | .error _ => s
  | .delete uid =>
    match delete_user s uid with
    | .ok s' => s'
    | .error _ => s
  | .importCSV csv =>
    match upload_users_csv s csv with
    | .ok (s', _) => s'
    | .error _ => s

/-- State reached from the empty store by a sequence of operations. -/
def applyOps (ops : List Op) : SysState := ops.foldl applyOp initState

/-- The uniqueness invariant: no two records in the store share a name. -/
def uniqueNames (db : List User) : Prop :=
  db.Pairwise fun u v => u.name ≠ v.name

instance decUniqueNames (db : List User) : Decidable (uniqueNames db) :=
  inferInstanceAs (Decidable (db.Pairwise fun u v : User => u.name ≠ v.name))

/-- Specification-side restatement of the skip-reporting contract as the
program realizes it, for the refinement proof: walking the rows in file
order, a duplicate-name row contributes its parsed name, a parse-failed
row contributes the `str` rendering of its Name cell (its raw text, or
`"nan"` for a NaN cell), and an accepted row contributes nothing while
extending the store. -/
def skippedNamesSpec : SysState → List Row → List String
  | _, [] => []
  | sys, r :: rs =>
    match parseRow r with
    | some (nm, ag) =>
      if containsName sys.db nm then
        nm :: skippedNamesSpec sys rs
      else
        skippedNamesSpec
          { db := sys.db ++ [{ id := sys.nextId, name := nm, age := .num (ag : ℚ) }],
            nextId := sys.nextId + 1 } rs
    | none => (r.name.getD "nan") :: skippedNamesSpec sys rs

/-- The reporting contract exactly as the claim words it: a parse-failed
row recorded with its raw Name cell value, or the placeholder "N/A" when
that value is unavailable. Differs from `skippedNamesSpec` only in the
parse-failure entry; the program refutes this version. -/
def claimedSkippedNames : SysState → List Row → List String
  | _, [] => []
  | sys, r :: rs =>
    match parseRow r with
    | some (nm, ag) =>
      if containsName sys.db nm then
        nm :: claimedSkippedNames sys rs
      else
        claimedSkippedNames
          { db := sys.db ++ [{ id := sys.nextId, name := nm, age := .num (ag : ℚ) }],
            nextId := sys.nextId + 1 } rs
    | none => (r.name.getD "N/A") :: claimedSkippedNames sys rs

/-- CSV with a valid header and one row whose Name cell is empty, hence
NaN: the text `"Name,Age\n,30"`. -/
def nanRowCSV : CSV :=
  { header := ["Name", "Age"], rows := [{ name := none, age := some 30 }] }

/-- The four records of the aggregation example in the tests. -/
def exampleDb : List User :=
  [ { id := 0, name := "Liam", age := .num 22 },
    { id := 1, name := "Linda", age := .num 28 },
    { id := 2, name := "Mason", age := .num 35 },
    { id := 3, name := "Mia", age := .num 30 } ]

/-- Store holding one record named Bob, as in the duplicate-create test. -/
def bobState : SysState :=
  { db := [{ id := 0, name := "Bob", age := .num 25 }], nextId := 1 }

/-- CSV whose header lacks both required columns (lowercase "name"). -/
def kevinCSV : CSV :=
  { header := ["name"], rows := [{ name := some "Kevin", age := none }] }

/-- Store holding one record named Heidi, as in the mixed-import test. -/
def heidiState : SysState :=
  { db := [{ id := 0, name := "Heidi", age := .num 60 }], nextId := 1 }

/-- Import-loop state over `heidiState` before any row is processed. -/
def heidiImport : ImportState :=
  { sys := heidiState, added := 0, skipped := 0, skippedNames := [] }

/-- A CSV row duplicating the stored name Heidi. -/
def heidiRow : Row := { name := some "Heidi", age := some 61 }

/-- The mixed CSV of the tests: a duplicate name, a fresh name, and a row
whose Age cell does not parse. -/
def mixedCSV : CSV :=
  { header := ["Name", "Age"],
    rows := [ { name := some "Heidi", age := some 61 },
              { name := some "Ivy", age := some 65 },
              { name := some "Judy", age := none } ] }

/-- The all-accepted CSV of the tests. -/
def frankCSV : CSV :=
  { header := ["Name", "Age"],
    rows := [ { name := some "Frank", age := some 50 },
              { name := some "Grace", age := some 55 } ] }

/-- Store after importing `frankCSV` into the empty store. -/
def frankFinal : SysState :=
  { db := [{ id := 0, name := "Frank", age := .num ((50 : ℤ) : ℚ) },
           { id := 1, name := "Grace", age := .num ((55 : ℤ) : ℚ) }],
    nextId := 2 }

/-- Report produced by importing `frankCSV` into the empty store. -/
def frankReport : ImportReport :=
  { added := 2, skipped := 0, skippedNames := [] }

/-- Store of the non-numeric-age test: Noah with a numeric age, Nora with
an age `to_numeric` coerces to NaN. -/
def noahNoraDb : List User :=
  [ { id := 0, name := "Noah", age := .num 40 },
    { id := 1, name := "Nora", age := .nonNumeric "invalid_age" } ]

/-- Appending a record whose name is absent from the store preserves the
uniqueness invariant. -/
lemma uniqueNames_append (db : List User) (u : User)
    (h : uniqueNames db) (hn : containsName db u.name = false) :
    uniqueNames (db ++ [u]) := by
  rw [uniqueNames, List.pairwise_append]
  refine ⟨h, List.pairwise_singleton _ _, ?_⟩
  intro a ha b hb
  simp only [List.mem_singleton] at hb
  subst hb
  simp only [containsName, List.any_eq_false, decide_eq_true_eq] at hn
  exact hn a ha

lemma uniqueNames_create (s : SysState) (nm : String) (ag : ℤ)
    (h : uniqueNames s.db) : uniqueNames (applyOp s (.create nm ag)).db := by
  unfold applyOp create_user
  by_cases hc : containsName s.db nm
  · simp [hc]; exact h
  · simp only [hc, Bool.false_eq_true, if_false]
    exact uniqueNames_append _ _ h (by simpa using hc)

lemma uniqueNames_delete (s : SysState) (uid : ℕ)
    (h : uniqueNames s.db) : uniqueNames (applyOp s (.delete uid)).db := by
  unfold applyOp delete_user
  by_cases hc : s.db.any fun u => u.id = uid
  · simp only [hc, if_true]
    exact h.sublist (List.filter_sublist s.db)
  · simp [hc]; exact h

lemma processRow_uniqueNames (st : ImportState) (r : Row)
    (h : uniqueNames st.sys.db) : uniqueNames (processRow st r).sys.db := by
  unfold processRow
  cases hp : parseRow r with
  | none => exact h
  | some p =>
    obtain ⟨nm, ag⟩ := p
    by_cases hc : containsName st.sys.db nm
    · simp [hc]; exact h
    · simp only [hc, Bool.false_eq_true, if_false]
      exact uniqueNames_append _ _ h (by simpa using hc)

lemma foldl_processRow_uniqueNames (rows : List Row) (st : ImportState)
    (h : uniqueNames st.sys.db) :
    uniqueNames (rows.foldl processRow st).sys.db := by
  induction rows generalizing st with
  | nil => exact h
  | cons r rs ih => exact ih _ (processRow_uniqueNames st r h)

lemma uniqueNames_import (s : SysState) (csv : CSV)
    (h : uniqueNames s.db) : uniqueNames (applyOp s (.importCSV csv)).db := by
  unfold applyOp upload_users_csv
  by_cases hh : "Name" ∈ csv.header ∧ "Age" ∈ csv.header
  · simp only [hh, not_true_eq_false, if_false]
    exact foldl_processRow_uniqueNames csv.rows _ h
  · simp [hh]; exact h

lemma uniqueNames_applyOp (s : SysState) (op : Op)
    (h : uniqueNames s.db) : uniqueNames (applyOp s op).db := by
  cases op with
  | create nm ag => exact uniqueNames_create s nm ag h
  | delete uid => exact uniqueNames_delete s uid h
  | importCSV csv => exact uniqueNames_import s csv h

lemma uniqueNames_foldl_applyOp (ops : List Op) (s : SysState)
    (h : uniqueNames s.db) : uniqueNames (ops.foldl applyOp s).db := by
  induction ops generalizing s with
  | nil => exact h
  | cons op rest ih => exact ih _ (uniqueNames_applyOp s op h)

/-- C1: starting from the empty store, after any sequence of create,
delete and CSV-import operations, no two records in the store have the
same name (case-sensitive exact comparison). -/
theorem store_names_unique (ops : List Op) : uniqueNames (applyOps ops).db :=
  uniqueNames_foldl_applyOp ops initState List.Pairwise.nil

/-- C2: whenever some existing record already carries the requested name,
create fails with DuplicateName regardless of the requested age and the
store is unchanged by the failed operation. -/
theorem create_duplicate_rejected (s : SysState) (nm : String) (ag : ℤ)
    (h : containsName s.db nm = true) :
    create_user s nm ag = .error .DuplicateName ∧ applyOp s (.create nm ag) = s := by
  constructor
  · unfold create_user; simp [h]
  · unfold applyOp create_user; simp [h]

/-- Witness for C2: creating a second Bob with a different age fails and
leaves the store as it was. -/
theorem create_duplicate_rejected_witness :
    containsName bobState.db "Bob" = true ∧
    (create_user bobState "Bob" 26 = .error .DuplicateName ∧
      applyOp bobState (.create "Bob" 26) = bobState) :=
  ⟨by decide, create_duplicate_rejected bobState "Bob" 26 (by decide)⟩

/-- C3: a CSV whose header lacks the column Name or the column Age is
rejected with SchemaMismatch and the store is unchanged, so no record is
created. -/
theorem upload_missing_column_rejected (s : SysState) (csv : CSV)
    (h : "Name" ∉ csv.header ∨ "Age" ∉ csv.header) :
    upload_users_csv s csv = .error .SchemaMismatch ∧ applyOp s (.importCSV csv) = s := by
  have hn : ¬ ("Name" ∈ csv.header ∧ "Age" ∈ csv.header) := by tauto
  constructor
  · unfold upload_users_csv; rw [if_pos hn]
  · simp only [applyOp, upload_users_csv]; rw [if_pos hn]

/-- Witness for C3: the lowercase-header CSV of the tests is rejected on
any store, here the empty one. -/
theorem upload_missing_column_rejected_witness :
    ("Name" ∉ kevinCSV.header ∨ "Age" ∉ kevinCSV.header) ∧
    (upload_users_csv initState kevinCSV = .error .SchemaMismatch ∧
      applyOp initState (.importCSV kevinCSV) = initState) :=
  ⟨by decide, upload_missing_column_rejected initState kevinCSV (by decide)⟩

/-- On a store satisfying the uniqueness invariant, a contained name is
carried by exactly one record. -/
lemma uniqueNames_countP_eq_one (db : List User) (nm : String)
    (hu : uniqueNames db) (hc : containsName db nm = true) :
    (db.countP fun u => u.name = nm) = 1 := by
  induction db with
  | nil => simp [containsName] at hc
  | cons u t ih =>
    rw [uniqueNames, List.pairwise_cons] at hu
    obtain ⟨hu1, hu2⟩ := hu
    by_cases h : u.name = nm
    · rw [List.countP_cons_of_pos _ _ (by simpa using h)]
      have ht : (t.countP fun u => u.name = nm) = 0 := by
        rw [List.countP_eq_zero]
        intro v hv
        simp only [decide_eq_true_eq]
        intro hveq
        exact (hu1 v hv) (h.trans hveq.symm)
      rw [ht]
    · rw [List.countP_cons_of_neg _ _ (by simpa using h)]
      apply ih hu2
      simp only [containsName, List.any_cons, Bool.or_eq_true, decide_eq_true_eq] at hc
      rcases hc with hc | hc
      · exact absurd hc h
      · exact hc

/-- C4: on a store satisfying the uniqueness invariant that already holds
the row's name, a CSV row with a parseable age is counted as skipped with
that name recorded, the store is untouched (no new record), and exactly
one stored record carries that name afterwards. -/
theorem import_duplicate_row_skipped (st : ImportState) (r : Row) (nm : String) (ag : ℤ)
    (hu : uniqueNames st.sys.db)
    (hname : r.name = some nm) (hage : r.age = some ag)
    (hc : containsName st.sys.db nm = true) :
    processRow st r =
      { st with skipped := st.skipped + 1, skippedNames := st.skippedNames ++ [nm] } ∧
    ((processRow st r).sys.db.countP fun u => u.name = nm) = 1 := by
  have hp : parseRow r = some (nm, ag) := by simp [parseRow, hname, hage]
  have hstep : processRow st r =
      { st with skipped := st.skipped + 1, skippedNames := st.skippedNames ++ [nm] } := by
    unfold processRow
    rw [hp]
    simp [hc]
  refine ⟨hstep, ?_⟩
  rw [hstep]
  exact uniqueNames_countP_eq_one _ _ hu hc

/-- Witness for C4: a second Heidi row against the store already holding
Heidi is skipped, leaving exactly one Heidi. -/
theorem import_duplicate_row_skipped_witness :
    uniqueNames heidiImport.sys.db ∧
    heidiRow.name = some "Heidi" ∧ heidiRow.age = some 61 ∧
    containsName heidiImport.sys.db "Heidi" = true ∧
    (processRow heidiImport heidiRow =
      { heidiImport with skipped := 1, skippedNames := ["Heidi"] } ∧
    ((processRow heidiImport heidiRow).sys.db.countP fun u => u.name = "Heidi") = 1) :=
  ⟨by decide, rfl, rfl, by decide,
   import_duplicate_row_skipped heidiImport heidiRow "Heidi" 61 (by decide) rfl rfl (by decide)⟩

/-- The import loop accumulates exactly the specification's ordered
skipped-name list after whatever was already accumulated. -/
lemma foldl_processRow_skippedNames (rows : List Row) (st : ImportState) :
    (rows.foldl processRow st).skippedNames =
      st.skippedNames ++ skippedNamesSpec st.sys rows := by
  induction rows generalizing st with
  | nil => simp [skippedNamesSpec]
  | cons r rs ih =>
    rw [List.foldl_cons]
    cases hp : parseRow r with
    | none =>
      have hstep : processRow st r =
          { st with skipped := st.skipped + 1,
                    skippedNames := st.skippedNames ++ [r.name.getD "nan"] } := by
        unfold processRow; rw [hp]
      rw [hstep, ih]
      simp [skippedNamesSpec, hp]
    | some p =>
      obtain ⟨nm, ag⟩ := p
      by_cases hc : containsName st.sys.db nm
      · have hstep : processRow st r =
            { st with skipped := st.skipped + 1,
                      skippedNames := st.skippedNames ++ [nm] } := by
          unfold processRow; rw [hp]; simp [hc]
        rw [hstep, ih]
        simp [skippedNamesSpec, hp, hc]
      · have hstep : processRow st r =
            { st with
                sys := { db := st.sys.db ++
                           [{ id := st.sys.nextId, name := nm, age := .num (ag : ℚ) }],
                         nextId := st.sys.nextId + 1 },
                added := st.added + 1 } := by
          unfold processRow; rw [hp]; simp [hc]
        rw [hstep, ih]
        simp [skippedNamesSpec, hp, hc]

/-- A successful upload passed the header check and returns exactly the
components of the final loop state. -/
lemma upload_ok_parts (s : SysState) (csv : CSV) (s' : SysState) (rep : ImportReport)
    (h : upload_users_csv s csv = .ok (s', rep)) :
    ("Name" ∈ csv.header ∧ "Age" ∈ csv.header) ∧
    s' = (csv.rows.foldl processRow
            { sys := s, added := 0, skipped := 0, skippedNames := [] }).sys ∧
    rep.added = (csv.rows.foldl processRow
            { sys := s, added := 0, skipped := 0, skippedNames := [] }).added ∧
    rep.skipped = (csv.rows.foldl processRow
            { sys := s, added := 0, skipped := 0, skippedNames := [] }).skipped ∧
    rep.skippedNames = (csv.rows.foldl processRow
            { sys := s, added := 0, skipped := 0, skippedNames := [] }).skippedNames := by
  unfold upload_users_csv at h
  by_cases hh : "Name" ∈ csv.header ∧ "Age" ∈ csv.header
  · rw [if_neg (not_not_intro hh)] at h
    simp only [Except.ok.injEq, Prod.mk.injEq] at h
    obtain ⟨h1, h2⟩ := h
    exact ⟨hh, h1.symm, by rw [← h2], by rw [← h2], by rw [← h2]⟩
  · rw [if_pos hh] at h
    simp at h

/-- Counterexample for C5: importing the CSV `"Name,Age\n,30"` into the
empty store records the parse-failed row as `"nan"` — the `str` rendering
of the NaN Name cell — while the claimed contract records `"N/A"`; the
two lists differ, so the claim as stated is false of the program. -/
theorem upload_skipped_names_NA_cex :
    upload_users_csv initState nanRowCSV =
      .ok (initState, { added := 0, skipped := 1, skippedNames := ["nan"] }) ∧
    claimedSkippedNames initState nanRowCSV.rows = ["N/A"] ∧
    (["nan"] : List String) ≠ ["N/A"] :=
  ⟨rfl, rfl, by decide⟩

/-- C5 as amended: for every upload that passes the header check, the
report's skipped-names list is exactly the specification's ordered list:
skipped rows in row-encounter order, a duplicate-name skip recorded under
its parsed name and a parse-failure skip under the `str` rendering of its
Name cell — its raw text when the cell holds text, and `"nan"` when the
cell is NaN (the code's `'N/A'` fallback being unreachable once the
header check has passed). -/
theorem upload_skipped_names_ordered (s : SysState) (csv : CSV)
    (s' : SysState) (rep : ImportReport)
    (h : upload_users_csv s csv = .ok (s', rep)) :
    rep.skippedNames = skippedNamesSpec s csv.rows := by
  obtain ⟨-, -, -, -, h5⟩ := upload_ok_parts s csv s' rep h
  rw [h5, foldl_processRow_skippedNames]
  rfl

/-- Witness for C5: the mixed CSV against the Heidi store reports
["Heidi", "Judy"], matching the specification list. -/
theorem upload_skipped_names_ordered_witness :
    upload_users_csv heidiState mixedCSV =
      .ok ({ db := [{ id := 0, name := "Heidi", age := .num 60 },
                    { id := 1, name := "Ivy", age := .num ((65 : ℤ) : ℚ) }],
             nextId := 2 },
           { added := 1, skipped := 2, skippedNames := ["Heidi", "Judy"] }) ∧
    ({ added := 1, skipped := 2, skippedNames := ["Heidi", "Judy"] } :
        ImportReport).skippedNames = skippedNamesSpec heidiState mixedCSV.rows :=
  ⟨rfl, upload_skipped_names_ordered _ _ _ _ rfl⟩

lemma includedRows_filter (db : List User) :
    includedRows (db.filter fun u => u.age.toNumeric.isSome) = includedRows db := by
  simp [includedRows, List.filter_filter]

/-- Dropping the non-numeric-age records beforehand leaves the whole
aggregation table unchanged. -/
lemma averageTable_filter (db : List User) :
    averageTable (db.filter fun u => u.age.toNumeric.isSome) = averageTable db := by
  unfold averageTable groupKeys groupAges
  simp only [includedRows_filter]

/-- A key appears in the table exactly when some record with a numeric
age has that group key. -/
lemma mem_averageTable_keys (db : List User) (k : Char) :
    k ∈ (averageTable db).map Prod.fst ↔
      ∃ u ∈ db, u.age.toNumeric.isSome ∧ groupKey u = some k := by
  unfold averageTable groupKeys includedRows
  simp [List.map_map, Function.comp, List.mem_dedup, List.mem_filterMap, List.mem_filter,
    and_assoc]

/-- C6: on a non-empty store the aggregation returns a table (it never
raises), records whose age is not interpretable as numeric are excluded
from the entire computation, and a key with no numeric-age contributor is
absent from the result. -/
theorem aggregation_excludes_nonnumeric (db : List User) (hne : db ≠ []) :
    get_average_age_by_group db = .table (averageTable db) ∧
    averageTable (db.filter fun u => u.age.toNumeric.isSome) = averageTable db ∧
    ∀ k : Char, (¬ ∃ u ∈ db, u.age.toNumeric.isSome ∧ groupKey u = some k) →
      k ∉ (averageTable db).map Prod.fst := by
  refine ⟨?_, averageTable_filter db, ?_⟩
  · unfold get_average_age_by_group
    rw [if_neg hne]
  · intro k hk
    rw [mem_averageTable_keys]
    exact hk

/-- Witness for C6: the Noah/Nora store of the tests is non-empty and
aggregates to a table. -/
theorem aggregation_excludes_nonnumeric_witness :
    noahNoraDb ≠ [] ∧
    get_average_age_by_group noahNoraDb = .table (averageTable noahNoraDb) :=
  ⟨by decide, (aggregation_excludes_nonnumeric noahNoraDb (by decide)).1⟩

/-- Concrete evaluation of the aggregation example of the tests. -/
lemma averageTable_example : averageTable exampleDb = [('L', 25), ('M', 65 / 2)] := by
  have h1 : groupKeys exampleDb = ['L', 'M'] := by decide
  have h2 : groupAges exampleDb 'L' = [22, 28] := by decide
  have h3 : groupAges exampleDb 'M' = [35, 30] := by decide
  unfold averageTable
  rw [h1]
  simp only [List.map_cons, List.map_nil, h2, h3]
  norm_num [listMean, round2, roundHalfEven]

/-- C7: every value in the aggregation table is the arithmetic mean of
the group's included ages rounded to two decimal digits, and the store
with Liam 22, Linda 28, Mason 35, Mia 30 aggregates exactly to
L maps-to 25 and M maps-to 32.5. -/
theorem average_is_rounded_mean :
    (∀ (db : List User) (k : Char) (v : ℚ),
        (k, v) ∈ averageTable db → v = round2 (listMean (groupAges db k))) ∧
    get_average_age_by_group exampleDb = .table [('L', 25), ('M', 65 / 2)] := by
  constructor
  · intro db k v hv
    unfold averageTable at hv
    rw [List.mem_map] at hv
    obtain ⟨k', _, hpair⟩ := hv
    rw [Prod.mk.injEq] at hpair
    obtain ⟨h1, h2⟩ := hpair
    subst h1
    exact h2.symm
  · unfold get_average_age_by_group
    rw [if_neg (by decide), averageTable_example]

/-- Witness for C7: the L entry of the example table is the rounded mean
of 22 and 28. -/
theorem average_is_rounded_mean_witness :
    ('L', (25 : ℚ)) ∈ averageTable exampleDb ∧
    (25 : ℚ) = round2 (listMean (groupAges exampleDb 'L')) :=
  ⟨by rw [averageTable_example]; simp,
   average_is_rounded_mean.1 exampleDb 'L' 25 (by rw [averageTable_example]; simp)⟩

/-- C8: the empty store yields the explicit no-data indicator, the
indicator occurs for the empty store only, and a non-empty store with no
qualifying record yields the empty table, which is a different value. -/
theorem empty_store_no_data :
    get_average_age_by_group [] = .noData ∧
    (∀ db : List User, get_average_age_by_group db = .noData ↔ db = []) ∧
    get_average_age_by_group
        [{ id := 0, name := "Nora", age := .nonNumeric "invalid_age" }] = .table [] := by
  refine ⟨rfl, ?_, rfl⟩
  intro db
  unfold get_average_age_by_group
  by_cases h : db = [] <;> simp [h]

/-- Counterexample for C9: against the empty store, a create request with
the empty-string name succeeds and a record with the empty name is
stored, so create does not enforce non-emptiness of the name. -/
theorem create_empty_name_cex :
    create_user initState "" 5 =
      .ok ({ db := [{ id := 0, name := "", age := .num ((5 : ℤ) : ℚ) }], nextId := 1 },
           { id := 0, name := "", age := .num ((5 : ℤ) : ℚ) }) ∧
    containsName (applyOp initState (.create "" 5)).db "" = true :=
  ⟨rfl, rfl⟩

/-- C9 as amended: create applies no non-emptiness validation; an
empty-string name is subject only to the duplicate-name check, and when
no existing record carries the empty name the request succeeds and stores
a record whose name is the empty string. -/
theorem create_empty_name_no_validation (s : SysState) (ag : ℤ)
    (h : containsName s.db "" = false) :
    create_user s "" ag =
      .ok ({ db := s.db ++ [{ id := s.nextId, name := "", age := .num (ag : ℚ) }],
             nextId := s.nextId + 1 },
           { id := s.nextId, name := "", age := .num (ag : ℚ) }) := by
  unfold create_user
  simp [h]

/-- Witness for the amended C9: the empty store accepts the empty name. -/
theorem create_empty_name_no_validation_witness :
    containsName initState.db "" = false ∧
    create_user initState "" 7 =
      .ok ({ db := initState.db ++ [{ id := initState.nextId, name := "",
                                      age := .num ((7 : ℤ) : ℚ) }],
             nextId := initState.nextId + 1 },
           { id := initState.nextId, name := "", age := .num ((7 : ℤ) : ℚ) }) :=
  ⟨rfl, create_empty_name_no_validation initState 7 rfl⟩

lemma processRow_added_skipped (st : ImportState) (r : Row) :
    (processRow st r).added + (processRow st r).skipped = st.added + st.skipped + 1 := by
  unfold processRow
  cases hp : parseRow r with
  | none => simp; omega
  | some p =>
    obtain ⟨nm, ag⟩ := p
    by_cases hc : containsName st.sys.db nm <;> simp [hc] <;> omega

lemma processRow_namesLen (st : ImportState) (r : Row)
    (h : st.skippedNames.length = st.skipped) :
    (processRow st r).skippedNames.length = (processRow st r).skipped := by
  unfold processRow
  cases hp : parseRow r with
  | none => simp [h]
  | some p =>
    obtain ⟨nm, ag⟩ := p
    by_cases hc : containsName st.sys.db nm <;> simp [hc, h]

lemma foldl_added_skipped (rows : List Row) (st : ImportState) :
    (rows.foldl processRow st).added + (rows.foldl processRow st).skipped
      = st.added + st.skipped + rows.length := by
  induction rows generalizing st with
  | nil => simp
  | cons r rs ih =>
    rw [List.foldl_cons, ih, processRow_added_skipped]
    simp only [List.length_cons]
    omega

lemma foldl_namesLen (rows : List Row) (st : ImportState)
    (h : st.skippedNames.length = st.skipped) :
    (rows.foldl processRow st).skippedNames.length = (rows.foldl processRow st).skipped := by
  induction rows generalizing st with
  | nil => exact h
  | cons r rs ih => exact ih _ (processRow_namesLen st r h)

/-- C10: every data row of an accepted upload is classified exactly once:
added plus skipped equals the number of data rows and the skipped-names
list has length equal to the skipped count. -/
theorem upload_row_accounting (s : SysState) (csv : CSV)
    (s' : SysState) (rep : ImportReport)
    (h : upload_users_csv s csv = .ok (s', rep)) :
    rep.added + rep.skipped = csv.rows.length ∧
    rep.skippedNames.length = rep.skipped := by
  obtain ⟨-, -, h3, h4, h5⟩ := upload_ok_parts s csv s' rep h
  constructor
  · rw [h3, h4, foldl_added_skipped]; simp
  · rw [h5, h4]; exact foldl_namesLen _ _ rfl

/-- Witness for C10: the two-row Frank/Grace upload into the empty store
has 2 added, 0 skipped, and an empty skipped-names list. -/
theorem upload_row_accounting_witness :
    upload_users_csv initState frankCSV = .ok (frankFinal, frankReport) ∧
    (frankReport.added + frankReport.skipped = frankCSV.rows.length ∧
      frankReport.skippedNames.length = frankReport.skipped) :=
  ⟨rfl, upload_row_accounting initState frankCSV frankFinal frankReport rfl⟩

end UserApp
